/-
Verification of the claude-time-tracker core against its specification.

The development shallowly embeds the Rust sources:
  src/models.rs   -> the data structures (Project, Session, Heartbeat, Commit, reports)
  src/db.rs       -> a pure Store state plus the SQL operations as Lean functions
                     (namespace Db); SQLite rows become list entries, rowids become
                     explicit counters, ORDER BY becomes an insertion sort
  src/tracker.rs  -> the session state machine (namespace Tracker)
  src/report/mod.rs -> the report aggregator (namespace Report)

External libraries are abstracted at their call sites, never reimplemented:
  chrono timestamps become Int seconds (DateTime subtraction and comparison agree
  with Int arithmetic on whole seconds); Utc::now() becomes an explicit now
  parameter per operation; the regex crate becomes a RegexEngine record of the
  operations the tracker calls; the RFC 3339 parser becomes a function parameter
  returning Option Int; git queries (gix) become Option-valued parameters.
  eprintln reporting has no effect on the store and is not modelled; the
  success/error result of an operation is modelled by Except.
-/
import Mathlib

/-- Session status enum from src/models.rs; persisted as the strings
"active" / "completed" / "abandoned". -/
inductive SessionStatus where
  | active
  | completed
  | abandoned
deriving Repr, DecidableEq

/-- SessionStatus::as_str from src/models.rs. -/
def SessionStatus.as_str : SessionStatus → String
  | .active => "active"
  | .completed => "completed"
  | .abandoned => "abandoned"

/-- SessionStatus::from_str from src/models.rs: unrecognized strings give none. -/
def SessionStatus.fromStr (s : String) : Option SessionStatus :=
  match s with
  | "active" => some SessionStatus.active
  | "completed" => some SessionStatus.completed
  | "abandoned" => some SessionStatus.abandoned
  | _ => none

/-- Project record from src/models.rs. Timestamps are Int seconds. -/
structure Project where
  id : Nat
  path : String
  git_remote : Option String
  display_name : Option String
  work_item_pattern : Option String
  created_at : Int
deriving Repr, DecidableEq

/-- Session record from src/models.rs. -/
structure Session where
  id : Nat
  project_id : Nat
  branch : String
  work_item : Option String
  start_commit : Option String
  end_commit : Option String
  started_at : Int
  ended_at : Option Int
  active_seconds : Option Int
  status : SessionStatus
deriving Repr, DecidableEq

/-- Heartbeat record from src/models.rs. -/
structure Heartbeat where
  id : Nat
  session_id : Nat
  timestamp : Int
deriving Repr, DecidableEq

/-- Commit record from src/models.rs (a row of the commits table). -/
structure Commit where
  id : Nat
  session_id : Nat
  hash : String
  message : Option String
  committed_at : Option Int
deriving Repr, DecidableEq

/-- CommitSummary report structure from src/models.rs. -/
structure CommitSummary where
  hash : String
  message : String
deriving Repr, DecidableEq

/-- WorkItemReport from src/models.rs. The completed_date field exists in the
struct but is never populated by the aggregator; it stays none here. -/
structure WorkItemReport where
  id : String
  branch : Option String
  total_seconds : Int
  completed_date : Option String
  commits : List CommitSummary
deriving Repr, DecidableEq

/-- ProjectReport from src/models.rs. -/
structure ProjectReport where
  name : String
  path : String
  total_seconds : Int
  work_items : List WorkItemReport
deriving Repr, DecidableEq

/-- MonthlyReport from src/models.rs. -/
structure MonthlyReport where
  period : String
  total_seconds : Int
  projects : List ProjectReport
deriving Repr, DecidableEq

/-- GitInfo from src/git.rs: what get_git_info returns when it succeeds. -/
structure GitInfo where
  branch : String
  head_commit : Option String
  remote_url : Option String
deriving Repr, DecidableEq

/-- EffectiveConfig from src/config.rs (the fields the tracker reads). -/
structure EffectiveConfig where
  idle_timeout_minutes : Nat
  project_name : Option String
  work_item_pattern : Option String
  include_commits : Bool
  max_commits_per_item : Nat
deriving Repr, DecidableEq

/-- The persistent SQLite state of src/db.rs as pure data: the four tables plus
the next rowid of each (SQLite INTEGER PRIMARY KEY counters). -/
structure Store where
  projects : List Project
  sessions : List Session
  heartbeats : List Heartbeat
  commits : List Commit
  next_project_id : Nat
  next_session_id : Nat
  next_heartbeat_id : Nat
  next_commit_id : Nat
deriving Repr, DecidableEq

/-- The freshly initialized database: empty tables, rowids start at 1. -/
def emptyStore : Store :=
  { projects := [], sessions := [], heartbeats := [], commits := [],
    next_project_id := 1, next_session_id := 1, next_heartbeat_id := 1, next_commit_id := 1 }

/-- Insertion step of the sort used to model SQL ORDER BY. -/
def insertLe (le : α → α → Bool) (x : α) : List α → List α
  | [] => [x]
  | y :: ys => if le x y then x :: y :: ys else y :: insertLe le x ys

/-- Stable insertion sort used to model SQL ORDER BY (ties keep table order,
which SQLite leaves unspecified; any deterministic choice is a valid model). -/
def sortLe (le : α → α → Bool) : List α → List α
  | [] => []
  | x :: xs => insertLe le x (sortLe le xs)

namespace Tracker

/-- calculate_active_time from src/tracker.rs: the loop over
heartbeats.windows(2) accumulating each gap that is at most the timeout. -/
def windows2 : List Heartbeat → List (Heartbeat × Heartbeat)
  | a :: b :: rest => (a, b) :: windows2 (b :: rest)
  | _ => []

/-- calculate_active_time from src/tracker.rs. -/
def calculate_active_time (heartbeats : List Heartbeat) (idle_timeout_minutes : Nat) : Int :=
  if heartbeats.isEmpty then 0
  else
    let timeout_seconds : Int := (idle_timeout_minutes : Int) * 60
    (windows2 heartbeats).foldl
      (fun total_seconds w =>
        let interval := w.2.timestamp - w.1.timestamp
        if interval ≤ timeout_seconds then total_seconds + interval else total_seconds)
      0

end Tracker

/-- The specification's accumulator (spec 4.1, stated over raw timestamps): for
each consecutive pair the gap is added exactly when it is at most T; sequences
of fewer than two elements contribute nothing. -/
def specActiveSum (T : Int) : List Int → Int
  | h1 :: h2 :: rest => (if h2 - h1 ≤ T then h2 - h1 else 0) + specActiveSum T (h2 :: rest)
  | _ => 0

/-- Abstract model of the regex crate as used by extract_work_item:
Captures.get 0 is the entire match; Captures.get (n+1) is the n-th capture
group, none when that group did not participate in the match. -/
structure Captures where
  get : Nat → Option String

/-- Abstract model of the regex crate: Regex::new may fail (none), and a
compiled regex maps an input string to optional captures. -/
structure RegexEngine where
  compile : String → Option (String → Option Captures)

namespace Tracker

/-- extract_work_item from src/tracker.rs: no pattern, failed compile or no
match give none; otherwise the first capture group, or the whole match when the
group is absent. -/
def extract_work_item (re : RegexEngine) (branch : String) (pattern : Option String) :
    Option String :=
  match pattern with
  | none => none
  | some p =>
    match re.compile p with
    | none => none
    | some regex =>
      match regex branch with
      | none => none
      | some caps =>
        match caps.get 1 with
        | some m => some m
        | none => caps.get 0

end Tracker

namespace Db

/-- parse_datetime from src/db.rs. The chrono RFC 3339 parser is the rfc3339
parameter (none exactly on strings that are not valid RFC 3339); on failure the
current time is silently substituted. -/
def parse_datetime (rfc3339 : String → Option Int) (now : Int) (s : String) : Int :=
  match rfc3339 s with
  | some t => t
  | none => now

/-- A raw sessions-table row as read back from SQLite (timestamps still text). -/
structure SessionRow where
  id : Nat
  project_id : Nat
  branch : String
  work_item : Option String
  start_commit : Option String
  end_commit : Option String
  started_at : String
  ended_at : Option String
  active_seconds : Option Int
  status : String
deriving Repr, DecidableEq

/-- A raw heartbeats-table row as read back from SQLite. -/
structure HeartbeatRow where
  id : Nat
  session_id : Nat
  timestamp : String
deriving Repr, DecidableEq

/-- A raw commits-table row as read back from SQLite. -/
structure CommitRow where
  id : Nat
  session_id : Nat
  hash : String
  message : Option String
  committed_at : Option String
deriving Repr, DecidableEq

/-- row_to_session from src/db.rs: timestamps go through parse_datetime and an
unrecognized status string defaults to active. -/
def row_to_session (rfc3339 : String → Option Int) (now : Int) (row : SessionRow) : Session :=
  { id := row.id
    project_id := row.project_id
    branch := row.branch
    work_item := row.work_item
    start_commit := row.start_commit
    end_commit := row.end_commit
    started_at := parse_datetime rfc3339 now row.started_at
    ended_at := row.ended_at.map (parse_datetime rfc3339 now)
    active_seconds := row.active_seconds
    status := (SessionStatus.fromStr row.status).getD SessionStatus.active }

/-- The heartbeat-row mapping inside get_heartbeats in src/db.rs. -/
def row_to_heartbeat (rfc3339 : String → Option Int) (now : Int) (row : HeartbeatRow) : Heartbeat :=
  { id := row.id
    session_id := row.session_id
    timestamp := parse_datetime rfc3339 now row.timestamp }

/-- The commit-row mapping inside get_commits in src/db.rs. -/
def row_to_commit (rfc3339 : String → Option Int) (now : Int) (row : CommitRow) : Commit :=
  { id := row.id
    session_id := row.session_id
    hash := row.hash
    message := row.message
    committed_at := row.committed_at.map (parse_datetime rfc3339 now) }

/-- SQL COALESCE(new, old): the update-if-non-null merge used by
get_or_create_project. -/
def coalesce (newv old : Option String) : Option String :=
  match newv with
  | some v => some v
  | none => old

/-- get_project_by_path from src/db.rs: SELECT ... WHERE path = ?. -/
def get_project_by_path (st : Store) (path : String) : Option Project :=
  st.projects.find? (fun p => decide (p.path = path))

/-- get_project_by_id from src/db.rs: SELECT ... WHERE id = ?. The Rust call
errors when the row is missing; every call site queries an id that exists, so
the model returns an Option. -/
def get_project_by_id (st : Store) (id : Nat) : Option Project :=
  st.projects.find? (fun p => decide (p.id = id))

/-- list_projects from src/db.rs: SELECT ... ORDER BY path. -/
def list_projects (st : Store) : List Project :=
  sortLe (fun a b => decide (a.path ≤ b.path)) st.projects

/-- get_or_create_project from src/db.rs: find the row by path, UPDATE it with
COALESCE merging when any new metadata is supplied (re-reading the updated row),
or INSERT a fresh row. Returns the project together with the new store. -/
def get_or_create_project (st : Store) (path : String)
    (git_remote display_name work_item_pattern : Option String) (now : Int) :
    Project × Store :=
  match get_project_by_path st path with
  | some project =>
    if git_remote.isSome || display_name.isSome || work_item_pattern.isSome then
      let st2 : Store :=
        { st with projects := st.projects.map (fun p =>
            if p.id = project.id then
              { p with git_remote := coalesce git_remote p.git_remote
                       display_name := coalesce display_name p.display_name
                       work_item_pattern := coalesce work_item_pattern p.work_item_pattern }
            else p) }
      ((get_project_by_id st2 project.id).getD project, st2)
    else (project, st)
  | none =>
    let project : Project :=
      { id := st.next_project_id, path := path, git_remote := git_remote,
        display_name := display_name, work_item_pattern := work_item_pattern,
        created_at := now }
    (project, { st with projects := st.projects ++ [project],
                        next_project_id := st.next_project_id + 1 })

/-- The sessions matching WHERE project_id = ? AND status = 'active'. -/
def activeSessionsFor (st : Store) (project_id : Nat) : List Session :=
  st.sessions.filter (fun s =>
    decide (s.project_id = project_id ∧ s.status = SessionStatus.active))

/-- get_active_session from src/db.rs: WHERE project_id = ? AND status =
'active' ORDER BY started_at DESC LIMIT 1. -/
def get_active_session (st : Store) (project_id : Nat) : Option Session :=
  (sortLe (fun a b => decide (b.started_at ≤ a.started_at))
    (activeSessionsFor st project_id)).head?

/-- get_all_active_sessions from src/db.rs: WHERE status = 'active'. -/
def get_all_active_sessions (st : Store) : List Session :=
  st.sessions.filter (fun s => decide (s.status = SessionStatus.active))

/-- create_session from src/db.rs: INSERT a fresh active session and read it
back by rowid. -/
def create_session (st : Store) (project_id : Nat) (branch : String)
    (work_item : Option String) (start_commit : Option String) (now : Int) :
    Session × Store :=
  let s : Session :=
    { id := st.next_session_id, project_id := project_id, branch := branch,
      work_item := work_item, start_commit := start_commit, end_commit := none,
      started_at := now, ended_at := none, active_seconds := none,
      status := SessionStatus.active }
  (s, { st with sessions := st.sessions ++ [s],
                next_session_id := st.next_session_id + 1 })

/-- complete_session from src/db.rs: UPDATE sessions SET ended_at, end_commit,
active_seconds, status WHERE id = ?. -/
def complete_session (st : Store) (session_id : Nat) (end_commit : Option String)
    (active_seconds : Int) (status : SessionStatus) (now : Int) : Store :=
  { st with sessions := st.sessions.map (fun s =>
      if s.id = session_id then
        { s with ended_at := some now, end_commit := end_commit,
                 active_seconds := some active_seconds, status := status }
      else s) }

/-- get_sessions_in_range from src/db.rs: WHERE started_at >= start AND
started_at < end [AND project_id = ?] AND status != 'active' ORDER BY
started_at. RFC 3339 string comparison on normalized UTC timestamps is
chronological, hence Int comparison here. -/
def get_sessions_in_range (st : Store) (start stop : Int) (project_id : Option Nat) :
    List Session :=
  sortLe (fun a b => decide (a.started_at ≤ b.started_at))
    (st.sessions.filter (fun s =>
      decide (start ≤ s.started_at ∧ s.started_at < stop ∧
        s.status ≠ SessionStatus.active ∧
        (∀ pid ∈ project_id, s.project_id = pid))))

/-- record_heartbeat from src/db.rs: INSERT one heartbeat stamped now. -/
def record_heartbeat (st : Store) (session_id : Nat) (now : Int) : Heartbeat × Store :=
  let h : Heartbeat := { id := st.next_heartbeat_id, session_id := session_id, timestamp := now }
  (h, { st with heartbeats := st.heartbeats ++ [h],
                next_heartbeat_id := st.next_heartbeat_id + 1 })

/-- get_heartbeats from src/db.rs: WHERE session_id = ? ORDER BY timestamp. -/
def get_heartbeats (st : Store) (session_id : Nat) : List Heartbeat :=
  sortLe (fun a b => decide (a.timestamp ≤ b.timestamp))
    (st.heartbeats.filter (fun h => decide (h.session_id = session_id)))

/-- record_commits from src/db.rs: INSERT one row per (hash, message title,
optional commit time) tuple, in order. -/
def record_commits (st : Store) (session_id : Nat)
    (commits : List (String × String × Option Int)) : Store :=
  commits.foldl (fun acc c =>
    { acc with
        commits := acc.commits ++
          [{ id := acc.next_commit_id, session_id := session_id,
             hash := c.1, message := some c.2.1, committed_at := c.2.2 }],
        next_commit_id := acc.next_commit_id + 1 }) st

/-- get_commits from src/db.rs: WHERE session_id = ? ORDER BY committed_at
(SQLite sorts NULL committed_at first). -/
def get_commits (st : Store) (session_id : Nat) : List Commit :=
  sortLe (fun a b =>
      match a.committed_at, b.committed_at with
      | none, _ => true
      | some _, none => false
      | some x, some y => decide (x ≤ y))
    (st.commits.filter (fun c => decide (c.session_id = session_id)))

end Db

namespace Tracker

/-- The staleness test of close_abandoned_sessions in src/tracker.rs: the
session has a last heartbeat and its timestamp plus the idle timeout is
strictly before now (Rust: Utc::now() > last_heartbeat.timestamp + timeout). -/
def staleBy (st : Store) (config : EffectiveConfig) (now : Int) (session_id : Nat) : Bool :=
  match (Db.get_heartbeats st session_id).getLast? with
  | none => false
  | some h => decide (h.timestamp + (config.idle_timeout_minutes : Int) * 60 < now)

/-- The update complete_session applies to an abandoned session during the
sweep: status Abandoned, no end commit, active_seconds from the accumulator. -/
def applyAbandon (st : Store) (config : EffectiveConfig) (now : Int) (s : Session) : Session :=
  { s with ended_at := some now, end_commit := none,
           active_seconds := some (calculate_active_time (Db.get_heartbeats st s.id)
             config.idle_timeout_minutes),
           status := SessionStatus.abandoned }

/-- One iteration of the close_abandoned_sessions loop from src/tracker.rs. -/
def sweepStep (config : EffectiveConfig) (now : Int) (acc : Store) (session : Session) : Store :=
  let heartbeats := Db.get_heartbeats acc session.id
  match heartbeats.getLast? with
  | none => acc
  | some last_heartbeat =>
    let timeout : Int := (config.idle_timeout_minutes : Int) * 60
    let cutoff := last_heartbeat.timestamp + timeout
    if cutoff < now then
      Db.complete_session acc session.id none
        (calculate_active_time heartbeats config.idle_timeout_minutes)
        SessionStatus.abandoned now
    else acc

/-- close_abandoned_sessions from src/tracker.rs: iterate over the snapshot of
all active sessions, closing each one whose last heartbeat is stale. -/
def close_abandoned_sessions (st : Store) (config : EffectiveConfig) (now : Int) : Store :=
  (Db.get_all_active_sessions st).foldl (sweepStep config now) st

/-- start_session from src/tracker.rs. git_info models get_git_info(path).ok();
re models the regex crate; now models Utc::now(). -/
def start_session (st : Store) (project_path : String) (config : EffectiveConfig)
    (git_info : Option GitInfo) (re : RegexEngine) (now : Int) : Store :=
  let st1 := close_abandoned_sessions st config now
  let pr := Db.get_or_create_project st1 project_path
    (git_info.bind (fun g => g.remote_url)) config.project_name config.work_item_pattern now
  let project := pr.1
  let st2 := pr.2
  match Db.get_active_session st2 project.id with
  | some _ => st2
  | none =>
    let branch := (git_info.map (fun g => g.branch)).getD "unknown"
    let work_item := extract_work_item re branch config.work_item_pattern
    let cs := Db.create_session st2 project.id branch work_item
      (git_info.bind (fun g => g.head_commit)) now
    (Db.record_heartbeat cs.2 cs.1.id now).2

/-- record_heartbeat from src/tracker.rs: silent no-op without a project record
or an active session, otherwise one heartbeat appended. -/
def record_heartbeat (st : Store) (project_path : String) (now : Int) : Store :=
  match Db.get_project_by_path st project_path with
  | none => st
  | some project =>
    match Db.get_active_session st project.id with
    | none => st
    | some session => (Db.record_heartbeat st session.id now).2

/-- stop_session from src/tracker.rs. commits_between models the
git::get_commits_between result (none when the git query fails). A missing
project record is an error; a missing active session is a reported no-op. -/
def stop_session (st : Store) (project_path : String) (config : EffectiveConfig)
    (git_info : Option GitInfo)
    (commits_between : Option (List (String × String × Option Int))) (now : Int) :
    Except String Store :=
  match Db.get_project_by_path st project_path with
  | none => Except.error "Project not found"
  | some project =>
    match Db.get_active_session st project.id with
    | none => Except.ok st
    | some session =>
      let end_commit := git_info.bind (fun g => g.head_commit)
      let heartbeats := Db.get_heartbeats st session.id
      let active_seconds := calculate_active_time heartbeats config.idle_timeout_minutes
      let st1 :=
        match session.start_commit with
        | some _ =>
          match commits_between with
          | some commits =>
            if commits.isEmpty then st else Db.record_commits st session.id commits
          | none => st
        | none => st
      Except.ok (Db.complete_session st1 session.id end_commit active_seconds
        SessionStatus.completed now)

end Tracker

/-- One hook invocation: the four store-mutating operations of the state
machine, each carrying the external-world inputs of that invocation. -/
inductive Op where
  | start (path : String) (config : EffectiveConfig) (git_info : Option GitInfo)
      (re : RegexEngine) (now : Int)
  | heartbeat (path : String) (now : Int)
  | stop (path : String) (config : EffectiveConfig) (git_info : Option GitInfo)
      (commits_between : Option (List (String × String × Option Int))) (now : Int)
  | sweep (config : EffectiveConfig) (now : Int)

/-- Apply one operation to the store. A stop that errors propagates before any
write, leaving the store unchanged. -/
def applyOp (st : Store) : Op → Store
  | Op.start path config git_info re now => Tracker.start_session st path config git_info re now
  | Op.heartbeat path now => Tracker.record_heartbeat st path now
  | Op.stop path config git_info commits_between now =>
    match Tracker.stop_session st path config git_info commits_between now with
    | Except.ok st2 => st2
    | Except.error _ => st
  | Op.sweep config now => Tracker.close_abandoned_sessions st config now

/-- Run a sequence of hook invocations against the fresh database. -/
def runOps (ops : List Op) : Store := ops.foldl applyOp emptyStore

/-- The per-project uniqueness invariant: at most one active session per
project. -/
def uniqueActive (st : Store) : Prop :=
  ∀ project_id, (Db.activeSessionsFor st project_id).length ≤ 1

/-- Character-list version of str::contains: does the first list occur
contiguously inside the second. -/
def charsStartWith : List Char → List Char → Bool
  | [], _ => true
  | _ :: _, [] => false
  | a :: as, b :: bs => a == b && charsStartWith as bs

/-- Rust str::contains(needle) on haystack (byte search on UTF-8 agrees with
character search). -/
def containsSub (haystack needle : String) : Bool :=
  go needle.data haystack.data
where
  go (t : List Char) : List Char → Bool
    | [] => t.isEmpty
    | c :: rest => charsStartWith t (c :: rest) || go t rest

namespace Report

/-- The project-filter test in generate_report from src/report/mod.rs:
case-insensitive substring match on display name (falling back to path) or on
the path. -/
def filterPass (project : Project) (project_filter : Option String) : Bool :=
  match project_filter with
  | none => true
  | some filter =>
    let name := project.display_name.getD project.path
    containsSub name.toLower filter.toLower || containsSub project.path.toLower filter.toLower

/-- One work-item group while aggregating: the HashMap value
(i64, Vec of CommitSummary, Option of String) from src/report/mod.rs. -/
structure GroupEntry where
  seconds : Int
  commits : List CommitSummary
  branch : Option String
deriving Repr, DecidableEq

/-- The commit-collection loop for one session inside generate_report: push
truncated summaries while the group holds fewer than the cap. -/
def appendSessionCommits (st : Store) (cap : Nat) (acc : List CommitSummary)
    (session_id : Nat) : List CommitSummary :=
  (Db.get_commits st session_id).foldl
    (fun cs c =>
      if cs.length < cap then
        cs ++ [{ hash := c.hash.take 8, message := c.message.getD "" }]
      else cs)
    acc

/-- One iteration of the session-grouping loop of generate_report: the Rust
HashMap keyed by work_item (falling back to branch) becomes an association list
in insertion order. entry.or_insert_with((0, vec![], Some(branch))) followed by
the += and commit pushes. -/
def groupStep (st : Store) (cap : Nat) (work_items : List (String × GroupEntry))
    (session : Session) : List (String × GroupEntry) :=
  let key := session.work_item.getD session.branch
  if work_items.any (fun e => decide (e.1 = key)) then
    work_items.map (fun e =>
      if e.1 = key then
        (e.1, { seconds := e.2.seconds + session.active_seconds.getD 0,
                commits := appendSessionCommits st cap e.2.commits session.id,
                branch := e.2.branch })
      else e)
  else
    work_items ++ [(key,
      { seconds := session.active_seconds.getD 0,
        commits := appendSessionCommits st cap [] session.id,
        branch := some session.branch })]

/-- format!("{}-{:02}", year, month). -/
def formatPeriod (year : Int) (month : Nat) : String :=
  toString year ++ "-" ++ (if month < 10 then "0" ++ toString month else toString month)

/-- The body of the per-project loop of generate_report, folded over the
projects: accumulates the project reports and the running grand total. -/
def projectStep (st : Store) (month_start month_end : Int) (project_filter : Option String)
    (cap : Nat) (acc : List ProjectReport × Int) (project : Project) :
    List ProjectReport × Int :=
  if filterPass project project_filter then
    let sessions := Db.get_sessions_in_range st month_start month_end (some project.id)
    if sessions.isEmpty then acc
    else
      let work_items := sessions.foldl (groupStep st cap) []
      let project_total : Int := (work_items.map (fun e => e.2.seconds)).sum
      if project_total = 0 then acc
      else
        let work_item_reports : List WorkItemReport :=
          sortLe (fun a b => decide (b.total_seconds ≤ a.total_seconds))
            (work_items.map (fun e =>
              { id := e.1, branch := e.2.branch, total_seconds := e.2.seconds,
                completed_date := none, commits := e.2.commits }))
        (acc.1 ++ [{ name := project.display_name.getD project.path,
                     path := project.path,
                     total_seconds := project_total,
                     work_items := work_item_reports }],
         acc.2 + project_total)
  else acc

/-- generate_report from src/report/mod.rs. The half-open month interval
[month_start, month_end) is computed by chrono in the source
(first-of-month to first-of-next-month); it enters the model as the two Int
bounds. Projects come from list_projects; zero-total projects are skipped;
work items and projects are sorted by descending total seconds. -/
def generate_report (st : Store) (year : Int) (month : Nat)
    (month_start month_end : Int) (project_filter : Option String)
    (max_commits_per_item : Nat) : MonthlyReport :=
  let res := (Db.list_projects st).foldl
    (projectStep st month_start month_end project_filter max_commits_per_item) ([], 0)
  { period := formatPeriod year month,
    total_seconds := res.2,
    projects := sortLe (fun a b => decide (b.total_seconds ≤ a.total_seconds)) res.1 }

end Report

/-! Generic lemmas about the insertion-sort model of SQL ORDER BY. -/

theorem insertLe_perm (le : α → α → Bool) (x : α) :
    ∀ l : List α, (insertLe le x l).Perm (x :: l)
  | [] => List.Perm.refl _
  | y :: ys => by
    simp only [insertLe]
    by_cases h : le x y = true
    · simp [h]
    · simp only [h, if_false]
      exact ((insertLe_perm le x ys).cons y).trans (List.Perm.swap x y ys)

theorem sortLe_perm (le : α → α → Bool) : ∀ l : List α, (sortLe le l).Perm l
  | [] => List.Perm.refl _
  | x :: xs => (insertLe_perm le x (sortLe le xs)).trans ((sortLe_perm le xs).cons x)

theorem mem_sortLe (le : α → α → Bool) (l : List α) (a : α) :
    a ∈ sortLe le l ↔ a ∈ l :=
  (sortLe_perm le l).mem_iff

theorem sortLe_eq_nil_iff (le : α → α → Bool) (l : List α) :
    sortLe le l = [] ↔ l = [] := by
  constructor
  · intro h
    have hlen := (sortLe_perm le l).length_eq
    rw [h] at hlen
    exact List.length_eq_zero.mp hlen.symm
  · rintro rfl
    rfl

theorem insertLe_pairwise {R : α → α → Prop} (le : α → α → Bool)
    (hle : ∀ a b, le a b = true → R a b) (hnle : ∀ a b, le a b = false → R b a)
    (htrans : ∀ a b c, R a b → R b c → R a c) (x : α) :
    ∀ l : List α, l.Pairwise R → (insertLe le x l).Pairwise R
  | [], _ => by simp [insertLe]
  | y :: ys, hp => by
    rcases List.pairwise_cons.mp hp with ⟨hy, hys⟩
    simp only [insertLe]
    by_cases h : le x y = true
    · simp only [h, if_true]
      refine List.pairwise_cons.mpr ⟨?_, hp⟩
      intro z hz
      rcases List.mem_cons.mp hz with rfl | hz
      · exact hle x z h
      · exact htrans x y z (hle x y h) (hy z hz)
    · have hfalse : le x y = false := by
        revert h
        cases le x y <;> simp
      simp only [h, if_false]
      refine List.pairwise_cons.mpr ⟨?_, insertLe_pairwise le hle hnle htrans x ys hys⟩
      intro z hz
      have hz2 : z = x ∨ z ∈ ys := by
        have := (insertLe_perm le x ys).mem_iff.mp hz
        simpa using this
      rcases hz2 with hzx | hz2
      · subst hzx
        exact hnle _ _ hfalse
      · exact hy z hz2

theorem sortLe_pairwise {R : α → α → Prop} (le : α → α → Bool)
    (hle : ∀ a b, le a b = true → R a b) (hnle : ∀ a b, le a b = false → R b a)
    (htrans : ∀ a b c, R a b → R b c → R a c) :
    ∀ l : List α, (sortLe le l).Pairwise R
  | [] => List.Pairwise.nil
  | x :: xs =>
    insertLe_pairwise le hle hnle htrans x _ (sortLe_pairwise le hle hnle htrans xs)

theorem getLast?_mem_self : ∀ {l : List α} {z : α}, l.getLast? = some z → z ∈ l := by
  intro l z h
  rcases List.mem_getLast?_eq_getLast (show z ∈ l.getLast? by simp [h]) with ⟨hne, rfl⟩
  exact List.getLast_mem hne

theorem pairwise_getLast_rel {R : α → α → Prop} :
    ∀ {l : List α} {z : α}, l.Pairwise R → l.getLast? = some z → ∀ a ∈ l, a = z ∨ R a z
  | [], _, _, h => by simp at h
  | [b], z, _, h => by
    intro a ha
    have hb : z = b := by simpa using h.symm
    have hab : a = b := by simpa using ha
    exact Or.inl (hab.trans hb.symm)
  | a :: b :: l, z, hp, h => by
    rw [List.getLast?_cons_cons] at h
    intro c hc
    rcases List.mem_cons.mp hc with rfl | hc
    · have hz : z ∈ b :: l := getLast?_mem_self h
      exact Or.inr ((List.pairwise_cons.mp hp).1 z hz)
    · exact pairwise_getLast_rel (List.pairwise_cons.mp hp).2 h c hc

theorem get_heartbeats_pairwise (st : Store) (session_id : Nat) :
    (Db.get_heartbeats st session_id).Pairwise (fun a b => a.timestamp ≤ b.timestamp) :=
  sortLe_pairwise (fun a b : Heartbeat => decide (a.timestamp ≤ b.timestamp))
    (fun a b h => of_decide_eq_true h)
    (fun a b h => le_of_not_le (of_decide_eq_false h))
    (fun _ _ _ h1 h2 => le_trans h1 h2) _

theorem get_heartbeats_last_max (st : Store) (session_id : Nat) (h : Heartbeat)
    (hl : (Db.get_heartbeats st session_id).getLast? = some h) :
    ∀ h2 ∈ Db.get_heartbeats st session_id, h2.timestamp ≤ h.timestamp := by
  intro h2 hmem
  rcases pairwise_getLast_rel (get_heartbeats_pairwise st session_id) hl h2 hmem with rfl | hr
  · exact le_refl _
  · exact hr

/-! The accumulator agrees with the specification sum. -/

theorem windows2_foldl (t : Int) :
    ∀ (l : List Heartbeat) (c : Int),
      (Tracker.windows2 l).foldl
        (fun total_seconds w =>
          let interval := w.2.timestamp - w.1.timestamp
          if interval ≤ t then total_seconds + interval else total_seconds) c
        = c + specActiveSum t (l.map (fun h => h.timestamp))
  | [], c => by simp [Tracker.windows2, specActiveSum]
  | [a], c => by simp [Tracker.windows2, specActiveSum]
  | a :: b :: rest, c => by
    rw [show Tracker.windows2 (a :: b :: rest) = (a, b) :: Tracker.windows2 (b :: rest) from rfl]
    rw [List.foldl_cons, windows2_foldl t (b :: rest)]
    simp only [List.map_cons, specActiveSum]
    by_cases h : b.timestamp - a.timestamp ≤ t
    · simp only [h, if_true]
      ring
    · simp only [h, if_false]
      ring

theorem calculate_active_time_eq_spec (heartbeats : List Heartbeat) (m : Nat) :
    Tracker.calculate_active_time heartbeats m
      = specActiveSum ((m : Int) * 60) (heartbeats.map (fun h => h.timestamp)) := by
  cases heartbeats with
  | nil => simp [Tracker.calculate_active_time, specActiveSum]
  | cons a rest =>
    simp only [Tracker.calculate_active_time, List.isEmpty_cons, if_false, Bool.false_eq_true]
    rw [windows2_foldl ((m : Int) * 60) (a :: rest) 0]
    ring

theorem getLast_timestamp_eq :
    ∀ (l : List Heartbeat) (a : Heartbeat),
      ((a :: l).getLast (List.cons_ne_nil a l)).timestamp
        = (l.map (fun h => h.timestamp)).getLastD a.timestamp
  | [], _ => rfl
  | b :: l, a => by
    rw [List.getLast_cons_cons, List.map_cons, List.getLastD_cons]
    exact getLast_timestamp_eq l b

theorem specActiveSum_span (T : Int) (hT : 0 ≤ T) :
    ∀ (l : List Int) (x : Int), List.Chain' (fun u v => u ≤ v) (x :: l) →
      specActiveSum T (x :: l) ≤ l.getLastD x - x
      ∧ (specActiveSum T (x :: l) = l.getLastD x - x ↔
          List.Chain' (fun u v => v - u ≤ T) (x :: l))
  | [], x, _ => by
    simp [specActiveSum]
  | y :: l, x, hch => by
    rcases List.chain'_cons.mp hch with ⟨hxy, hch2⟩
    rcases specActiveSum_span T hT l y hch2 with ⟨IH1, IH2⟩
    rw [List.getLastD_cons]
    rw [show specActiveSum T (x :: y :: l)
        = (if y - x ≤ T then y - x else 0) + specActiveSum T (y :: l) from rfl]
    rw [List.chain'_cons, ← IH2]
    by_cases h : y - x ≤ T
    · simp only [h, if_true, true_and]
      omega
    · simp only [h, if_false, false_and]
      constructor
      · omega
      · constructor
        · intro heq
          omega
        · intro hfalse
          exact hfalse.elim

/-- Claim C4: for every heartbeat sequence and idle timeout, the accumulator
equals the specification sum over consecutive pairs counting exactly the gaps
at most T (T = idle_timeout_minutes * 60 seconds); zero- and one-element
sequences give 0; a gap of exactly T counts and a gap of T + 1 does not. -/
theorem claim_C4 (heartbeats : List Heartbeat) (m : Nat) :
    Tracker.calculate_active_time heartbeats m
        = specActiveSum ((m : Int) * 60) (heartbeats.map (fun h => h.timestamp))
    ∧ (heartbeats.length ≤ 1 → Tracker.calculate_active_time heartbeats m = 0)
    ∧ (∀ a b : Heartbeat, b.timestamp - a.timestamp = (m : Int) * 60 →
        Tracker.calculate_active_time [a, b] m = (m : Int) * 60)
    ∧ (∀ a b : Heartbeat, b.timestamp - a.timestamp = (m : Int) * 60 + 1 →
        Tracker.calculate_active_time [a, b] m = 0) := by
  refine ⟨calculate_active_time_eq_spec _ _, ?_, ?_, ?_⟩
  · intro hlen
    rw [calculate_active_time_eq_spec]
    cases heartbeats with
    | nil => rfl
    | cons a t =>
      cases t with
      | nil => rfl
      | cons b t2 => simp at hlen
  · intro a b h
    rw [calculate_active_time_eq_spec]
    simp [specActiveSum, h]
  · intro a b h
    rw [calculate_active_time_eq_spec]
    simp only [List.map_cons, List.map_nil, specActiveSum, h]
    rw [if_neg (by omega)]
    ring

/-- Concrete heartbeat used by witnesses. -/
def mkhb (i : Nat) (t : Int) : Heartbeat := { id := i, session_id := 1, timestamp := t }

/-- Witness for C4 at concrete inputs: one heartbeat gives 0; with a 10-minute
timeout a 600-second gap counts and a 601-second gap does not. -/
theorem claim_C4_witness :
    Tracker.calculate_active_time [mkhb 1 0] 10 = 0
    ∧ Tracker.calculate_active_time [mkhb 1 0, mkhb 2 600] 10 = 600
    ∧ Tracker.calculate_active_time [mkhb 1 0, mkhb 2 601] 10 = 0 := by
  refine ⟨(claim_C4 [mkhb 1 0] 10).2.1 (by decide), ?_, ?_⟩
  · have h := (claim_C4 [] 10).2.2.1 (mkhb 1 0) (mkhb 2 600) (by decide)
    simpa using h
  · exact (claim_C4 [] 10).2.2.2 (mkhb 1 0) (mkhb 2 601) (by decide)

/-- Claim C5: on a non-decreasing heartbeat sequence the accumulated
active-seconds never exceeds the span from first to last timestamp, and it
equals that span exactly when every consecutive gap is at most the timeout. -/
theorem claim_C5 (a : Heartbeat) (rest : List Heartbeat) (m : Nat)
    (hch : List.Chain' (fun x y => x.timestamp ≤ y.timestamp) (a :: rest)) :
    Tracker.calculate_active_time (a :: rest) m
        ≤ ((a :: rest).getLast (List.cons_ne_nil a rest)).timestamp - a.timestamp
    ∧ (Tracker.calculate_active_time (a :: rest) m
        = ((a :: rest).getLast (List.cons_ne_nil a rest)).timestamp - a.timestamp
       ↔ List.Chain' (fun x y => y.timestamp - x.timestamp ≤ (m : Int) * 60) (a :: rest)) := by
  have hT : (0 : Int) ≤ (m : Int) * 60 := by positivity
  have hch2 : List.Chain' (fun u v : Int => u ≤ v)
      (a.timestamp :: rest.map (fun h => h.timestamp)) := by
    rw [show a.timestamp :: rest.map (fun h => h.timestamp)
        = (a :: rest).map (fun h => h.timestamp) from rfl]
    exact (List.chain'_map _).mpr hch
  have hspan := specActiveSum_span ((m : Int) * 60) hT
    (rest.map (fun h => h.timestamp)) a.timestamp hch2
  rw [calculate_active_time_eq_spec, getLast_timestamp_eq, List.map_cons]
  refine ⟨hspan.1, hspan.2.trans ?_⟩
  rw [show a.timestamp :: rest.map (fun h => h.timestamp)
      = (a :: rest).map (fun h => h.timestamp) from rfl]
  exact List.chain'_map _

/-- Witness for C5 at a concrete non-decreasing sequence: heartbeats at 0, 300
and 900 seconds with a 10-minute timeout accumulate at most the 900-second
span (and exactly 900, since both gaps are within the timeout). -/
theorem claim_C5_witness :
    Tracker.calculate_active_time [mkhb 1 0, mkhb 2 300, mkhb 3 900] 10 ≤ 900 := by
  have h := (claim_C5 (mkhb 1 0) [mkhb 2 300, mkhb 3 900] 10
    (by simp [List.chain'_cons, mkhb])).1
  have hval : (([mkhb 1 0, mkhb 2 300, mkhb 3 900]).getLast
      (List.cons_ne_nil (mkhb 1 0) [mkhb 2 300, mkhb 3 900])).timestamp
      - (mkhb 1 0).timestamp = 900 := rfl
  rw [hval] at h
  exact h

/-- Claim C9: work-item extraction is absent without a configured pattern,
absent (never raising) on a failed compile or a non-match, and on a match
yields the first capture group when it participated, else the entire match
(Captures.get 0). -/
theorem claim_C9 (re : RegexEngine) (branch : String) :
    Tracker.extract_work_item re branch none = none
    ∧ (∀ p, re.compile p = none → Tracker.extract_work_item re branch (some p) = none)
    ∧ (∀ p rx, re.compile p = some rx → rx branch = none →
        Tracker.extract_work_item re branch (some p) = none)
    ∧ (∀ p rx caps, re.compile p = some rx → rx branch = some caps →
        Tracker.extract_work_item re branch (some p) =
          match caps.get 1 with
          | some g => some g
          | none => caps.get 0) := by
  refine ⟨rfl, ?_, ?_, ?_⟩
  · intro p h
    simp [Tracker.extract_work_item, h]
  · intro p rx h1 h2
    simp [Tracker.extract_work_item, h1, h2]
  · intro p rx caps h1 h2
    simp [Tracker.extract_work_item, h1, h2]

/-- Concrete captures for the C9 witness: whole match and one group. -/
def capsW : Captures :=
  { get := fun n => if n = 0 then some "feature/ABC-123" else if n = 1 then some "ABC-123" else none }

/-- Concrete compiled regex for the C9 witness. -/
def rxW : String → Option Captures :=
  fun s => if s = "feature/ABC-123" then some capsW else none

/-- Concrete regex engine for the C9 witness: the pattern "bad" fails to
compile, every other pattern compiles to rxW. -/
def reW : RegexEngine :=
  { compile := fun p => if p = "bad" then none else some rxW }

/-- Witness for C9: a matching branch yields the capture group, a bad pattern
yields none, a non-matching branch yields none, no pattern yields none. -/
theorem claim_C9_witness :
    Tracker.extract_work_item reW "feature/ABC-123" (some "ok") = some "ABC-123"
    ∧ Tracker.extract_work_item reW "main" (some "bad") = none
    ∧ Tracker.extract_work_item reW "main" (some "ok") = none
    ∧ Tracker.extract_work_item reW "main" none = none := by
  refine ⟨?_, ?_, ?_, ?_⟩
  · have h := (claim_C9 reW "feature/ABC-123").2.2.2 "ok" rxW capsW
      (by simp [reW]) (by simp [rxW])
    simpa [capsW] using h
  · exact (claim_C9 reW "main").2.1 "bad" (by simp [reW])
  · exact (claim_C9 reW "main").2.2.1 "ok" rxW (by simp [reW]) (by simp [rxW])
  · exact (claim_C9 reW "main").1

/-- Claim C10: reading stored rows never fails on a malformed timestamp: when
the RFC 3339 parser rejects the stored string, parse_datetime silently yields
the current time, and the session / heartbeat / commit row readers substitute
it in place of the corrupted value. -/
theorem claim_C10 (rfc3339 : String → Option Int) (now : Int) :
    (∀ s, rfc3339 s = none → Db.parse_datetime rfc3339 now s = now)
    ∧ (∀ row : Db.SessionRow, rfc3339 row.started_at = none →
        (Db.row_to_session rfc3339 now row).started_at = now)
    ∧ (∀ row : Db.HeartbeatRow, rfc3339 row.timestamp = none →
        (Db.row_to_heartbeat rfc3339 now row).timestamp = now)
    ∧ (∀ (row : Db.CommitRow) (s : String), row.committed_at = some s →
        rfc3339 s = none →
        (Db.row_to_commit rfc3339 now row).committed_at = some now) := by
  refine ⟨?_, ?_, ?_, ?_⟩
  · intro s h
    simp [Db.parse_datetime, h]
  · intro row h
    simp [Db.row_to_session, Db.parse_datetime, h]
  · intro row h
    simp [Db.row_to_heartbeat, Db.parse_datetime, h]
  · intro row s h1 h2
    simp [Db.row_to_commit, Db.parse_datetime, h1, h2]

/-- Concrete corrupted session row for the C10 witness. -/
def rowW : Db.SessionRow :=
  { id := 1, project_id := 1, branch := "main", work_item := none, start_commit := none,
    end_commit := none, started_at := "not-a-date", ended_at := none,
    active_seconds := none, status := "active" }

/-- Witness for C10 with a parser that rejects everything: the current time 77
is substituted. -/
theorem claim_C10_witness :
    Db.parse_datetime (fun _ => none) 77 "garbage" = 77
    ∧ (Db.row_to_session (fun _ => none) 77 rowW).started_at = 77 :=
  ⟨(claim_C10 (fun _ => none) 77).1 "garbage" rfl,
   (claim_C10 (fun _ => none) 77).2.1 rowW rfl⟩

/-- Claim C8: a heartbeat for an unknown project, or for a project without an
active session, succeeds and changes nothing; otherwise exactly one heartbeat
stamped now is appended for the active session. -/
theorem claim_C8 (st : Store) (path : String) (now : Int) :
    (Db.get_project_by_path st path = none → Tracker.record_heartbeat st path now = st)
    ∧ (∀ project, Db.get_project_by_path st path = some project →
        Db.get_active_session st project.id = none →
        Tracker.record_heartbeat st path now = st)
    ∧ (∀ project session, Db.get_project_by_path st path = some project →
        Db.get_active_session st project.id = some session →
        Tracker.record_heartbeat st path now =
          { st with
              heartbeats := st.heartbeats ++
                [{ id := st.next_heartbeat_id, session_id := session.id, timestamp := now }],
              next_heartbeat_id := st.next_heartbeat_id + 1 }) := by
  refine ⟨?_, ?_, ?_⟩
  · intro h
    simp [Tracker.record_heartbeat, h]
  · intro project h1 h2
    simp [Tracker.record_heartbeat, h1, h2]
  · intro project session h1 h2
    simp [Tracker.record_heartbeat, h1, h2, Db.record_heartbeat]

/-- Concrete project shared by witnesses. -/
def pW : Project :=
  { id := 1, path := "/p", git_remote := none, display_name := none,
    work_item_pattern := none, created_at := 0 }

/-- Concrete active session shared by witnesses. -/
def sActW : Session :=
  { id := 1, project_id := 1, branch := "main", work_item := none, start_commit := none,
    end_commit := none, started_at := 0, ended_at := none, active_seconds := none,
    status := SessionStatus.active }

/-- Store with one project and one active session for the C8 witness. -/
def stW8 : Store :=
  { projects := [pW], sessions := [sActW], heartbeats := [], commits := [],
    next_project_id := 2, next_session_id := 2, next_heartbeat_id := 1, next_commit_id := 1 }

/-- Witness for C8: the no-project case leaves the fresh store untouched; with
an active session exactly one heartbeat is appended. -/
theorem claim_C8_witness :
    Tracker.record_heartbeat emptyStore "/p" 5 = emptyStore
    ∧ Tracker.record_heartbeat stW8 "/p" 5 =
        { stW8 with heartbeats := [{ id := 1, session_id := 1, timestamp := 5 }],
                    next_heartbeat_id := 2 } := by
  constructor
  · exact (claim_C8 emptyStore "/p" 5).1 (by decide)
  · have h := (claim_C8 stW8 "/p" 5).2.2 pW sActW (by decide) (by decide)
    rw [h]
    decide

/-- Shared concrete configuration for witnesses: 10-minute idle timeout. -/
def cfgW : EffectiveConfig :=
  { idle_timeout_minutes := 10, project_name := none, work_item_pattern := none,
    include_commits := true, max_commits_per_item := 10 }

/-- Counterexample to C1 as stated: on a store with no project record for the
path, Stop returns an error, not the claimed success. -/
theorem claim_C1_counterexample :
    Tracker.stop_session emptyStore "/p" cfgW none none 0
      = Except.error "Project not found" := rfl

/-- Claim C1 amended: Stop with a project record but no active session reports
a no-op and returns success leaving the store unchanged; Stop for a path with
no project record fails with the "Project not found" error. -/
theorem claim_C1_amended (st : Store) (path : String) (config : EffectiveConfig)
    (git_info : Option GitInfo)
    (commits_between : Option (List (String × String × Option Int))) (now : Int) :
    (Db.get_project_by_path st path = none →
      Tracker.stop_session st path config git_info commits_between now
        = Except.error "Project not found")
    ∧ (∀ project, Db.get_project_by_path st path = some project →
        Db.get_active_session st project.id = none →
        Tracker.stop_session st path config git_info commits_between now
          = Except.ok st) := by
  constructor
  · intro h
    simp [Tracker.stop_session, h]
  · intro project h1 h2
    simp [Tracker.stop_session, h1, h2]

/-- Store with one project and no session for the C1 witness. -/
def stW1 : Store :=
  { projects := [pW], sessions := [], heartbeats := [], commits := [],
    next_project_id := 2, next_session_id := 1, next_heartbeat_id := 1, next_commit_id := 1 }

/-- Witness for the amended C1: with a project record and no active session,
Stop succeeds and leaves the store unchanged. -/
theorem claim_C1_amended_witness :
    Tracker.stop_session stW1 "/p" cfgW none none 5 = Except.ok stW1 :=
  (claim_C1_amended stW1 "/p" cfgW none none 5).2 pW (by decide) (by decide)

/-! The reconciliation sweep: field preservation and a pointwise
characterization of its effect on the sessions table. -/

theorem complete_session_heartbeats (st : Store) (session_id : Nat) (ec : Option String)
    (secs : Int) (status : SessionStatus) (now : Int) :
    (Db.complete_session st session_id ec secs status now).heartbeats = st.heartbeats := rfl

theorem sweepStep_heartbeats (cfg : EffectiveConfig) (now : Int) (acc : Store) (s : Session) :
    (Tracker.sweepStep cfg now acc s).heartbeats = acc.heartbeats := by
  unfold Tracker.sweepStep
  dsimp only
  split
  · rfl
  · split
    · rfl
    · rfl

theorem sweepStep_projects (cfg : EffectiveConfig) (now : Int) (acc : Store) (s : Session) :
    (Tracker.sweepStep cfg now acc s).projects = acc.projects := by
  unfold Tracker.sweepStep
  dsimp only
  split
  · rfl
  · split
    · rfl
    · rfl

theorem get_heartbeats_congr {acc st : Store} (h : acc.heartbeats = st.heartbeats)
    (session_id : Nat) : Db.get_heartbeats acc session_id = Db.get_heartbeats st session_id := by
  unfold Db.get_heartbeats
  rw [h]

theorem applyAbandon_id (st : Store) (cfg : EffectiveConfig) (now : Int) (s : Session) :
    (Tracker.applyAbandon st cfg now s).id = s.id := rfl

theorem applyAbandon_idem (st : Store) (cfg : EffectiveConfig) (now : Int) (s : Session) :
    Tracker.applyAbandon st cfg now (Tracker.applyAbandon st cfg now s)
      = Tracker.applyAbandon st cfg now s := rfl

theorem sweepStep_sessions (st : Store) (cfg : EffectiveConfig) (now : Int)
    (acc : Store) (s1 : Session) (hhb : acc.heartbeats = st.heartbeats) :
    (Tracker.sweepStep cfg now acc s1).sessions
      = acc.sessions.map (fun s =>
          if s1.id = s.id ∧ Tracker.staleBy st cfg now s.id = true
          then Tracker.applyAbandon st cfg now s else s) := by
  unfold Tracker.sweepStep
  dsimp only
  rw [get_heartbeats_congr hhb]
  split
  next hlast =>
    have hall : ∀ s : Session,
        (if s1.id = s.id ∧ Tracker.staleBy st cfg now s.id = true
         then Tracker.applyAbandon st cfg now s else s) = s := by
      intro s
      by_cases hid : s1.id = s.id
      · have hst : Tracker.staleBy st cfg now s.id = false := by
          unfold Tracker.staleBy
          rw [← hid, hlast]
        simp [hst]
      · simp [hid]
    rw [List.map_congr_left (fun s _ => hall s)]
    simp
  next last hlast =>
    by_cases hc : last.timestamp + (cfg.idle_timeout_minutes : Int) * 60 < now
    · rw [if_pos hc]
      unfold Db.complete_session
      dsimp only
      refine List.map_congr_left ?_
      intro s _
      by_cases hid : s.id = s1.id
      · rw [if_pos hid]
        have hst : Tracker.staleBy st cfg now s.id = true := by
          unfold Tracker.staleBy
          rw [hid, hlast]
          exact decide_eq_true hc
        rw [if_pos ⟨hid.symm, hst⟩]
        unfold Tracker.applyAbandon
        rw [hid]
      · rw [if_neg hid]
        rw [if_neg (fun hand => hid hand.1.symm)]
    · rw [if_neg hc]
      have hall : ∀ s : Session,
          (if s1.id = s.id ∧ Tracker.staleBy st cfg now s.id = true
           then Tracker.applyAbandon st cfg now s else s) = s := by
        intro s
        by_cases hid : s1.id = s.id
        · have hst : Tracker.staleBy st cfg now s.id = false := by
            unfold Tracker.staleBy
            rw [← hid, hlast]
            exact decide_eq_false hc
          simp [hst]
        · simp [hid]
      rw [List.map_congr_left (fun s _ => hall s)]
      simp

theorem sweep_fold_sessions (st : Store) (cfg : EffectiveConfig) (now : Int) :
    ∀ (l : List Session) (acc : Store), acc.heartbeats = st.heartbeats →
      (l.foldl (Tracker.sweepStep cfg now) acc).sessions
        = acc.sessions.map (fun s =>
            if (∃ s1 ∈ l, s1.id = s.id) ∧ Tracker.staleBy st cfg now s.id = true
            then Tracker.applyAbandon st cfg now s else s)
  | [], acc, _ => by
    simp
  | s1 :: l, acc, hhb => by
    rw [List.foldl_cons]
    rw [sweep_fold_sessions st cfg now l _ (by rw [sweepStep_heartbeats]; exact hhb)]
    rw [sweepStep_sessions st cfg now acc s1 hhb]
    rw [List.map_map]
    refine List.map_congr_left ?_
    intro s _
    simp only [Function.comp_apply]
    by_cases hst : Tracker.staleBy st cfg now s.id = true
    · by_cases hid : s1.id = s.id
      · have hinner : (if s1.id = s.id ∧ Tracker.staleBy st cfg now s.id = true
            then Tracker.applyAbandon st cfg now s else s)
            = Tracker.applyAbandon st cfg now s := if_pos ⟨hid, hst⟩
        rw [hinner, applyAbandon_id st cfg now s]
        have hcons : (if (∃ s2 ∈ s1 :: l, s2.id = s.id)
              ∧ Tracker.staleBy st cfg now s.id = true
            then Tracker.applyAbandon st cfg now s else s)
            = Tracker.applyAbandon st cfg now s :=
          if_pos ⟨⟨s1, List.mem_cons_self s1 l, hid⟩, hst⟩
        rw [hcons]
        by_cases hex : ∃ s2 ∈ l, s2.id = s.id
        · rw [if_pos ⟨hex, hst⟩, applyAbandon_idem]
        · rw [if_neg (fun hand => hex hand.1)]
      · have hinner : (if s1.id = s.id ∧ Tracker.staleBy st cfg now s.id = true
            then Tracker.applyAbandon st cfg now s else s) = s :=
          if_neg (fun hand => hid hand.1)
        rw [hinner]
        by_cases hex : ∃ s2 ∈ l, s2.id = s.id
        · rcases hex with ⟨s2, hs2mem, hs2id⟩
          have h1 : (if (∃ s2 ∈ l, s2.id = s.id)
                ∧ Tracker.staleBy st cfg now s.id = true
              then Tracker.applyAbandon st cfg now s else s)
              = Tracker.applyAbandon st cfg now s :=
            if_pos ⟨⟨s2, hs2mem, hs2id⟩, hst⟩
          have h2 : (if (∃ s2 ∈ s1 :: l, s2.id = s.id)
                ∧ Tracker.staleBy st cfg now s.id = true
              then Tracker.applyAbandon st cfg now s else s)
              = Tracker.applyAbandon st cfg now s :=
            if_pos ⟨⟨s2, List.mem_cons_of_mem s1 hs2mem, hs2id⟩, hst⟩
          rw [h1, h2]
        · have h1 : (if (∃ s2 ∈ l, s2.id = s.id)
                ∧ Tracker.staleBy st cfg now s.id = true
              then Tracker.applyAbandon st cfg now s else s) = s :=
            if_neg (fun hand => hex hand.1)
          have h2 : (if (∃ s2 ∈ s1 :: l, s2.id = s.id)
                ∧ Tracker.staleBy st cfg now s.id = true
              then Tracker.applyAbandon st cfg now s else s) = s := by
            refine if_neg ?_
            rintro ⟨⟨s2, hs2mem, hs2id⟩, -⟩
            rcases List.mem_cons.mp hs2mem with rfl | hs2mem2
            · exact hid hs2id
            · exact hex ⟨s2, hs2mem2, hs2id⟩
          rw [h1, h2]
    · have hinner : (if s1.id = s.id ∧ Tracker.staleBy st cfg now s.id = true
          then Tracker.applyAbandon st cfg now s else s) = s :=
        if_neg (fun hand => hst hand.2)
      have h1 : (if (∃ s2 ∈ l, s2.id = s.id)
            ∧ Tracker.staleBy st cfg now s.id = true
          then Tracker.applyAbandon st cfg now s else s) = s :=
        if_neg (fun hand => hst hand.2)
      have h2 : (if (∃ s2 ∈ s1 :: l, s2.id = s.id)
            ∧ Tracker.staleBy st cfg now s.id = true
          then Tracker.applyAbandon st cfg now s else s) = s :=
        if_neg (fun hand => hst hand.2)
      rw [hinner, h1, h2]

theorem close_abandoned_sessions_sessions (st : Store) (cfg : EffectiveConfig) (now : Int)
    (hids : (st.sessions.map (fun s => s.id)).Nodup) :
    (Tracker.close_abandoned_sessions st cfg now).sessions
      = st.sessions.map (fun s =>
          if s.status = SessionStatus.active ∧ Tracker.staleBy st cfg now s.id = true
          then Tracker.applyAbandon st cfg now s else s) := by
  unfold Tracker.close_abandoned_sessions
  rw [sweep_fold_sessions st cfg now (Db.get_all_active_sessions st) st rfl]
  refine List.map_congr_left ?_
  intro s hs
  have hiff : (∃ s1 ∈ Db.get_all_active_sessions st, s1.id = s.id)
      ↔ s.status = SessionStatus.active := by
    constructor
    · rintro ⟨s1, hs1mem, hs1id⟩
      simp only [Db.get_all_active_sessions] at hs1mem
      have hmem := List.mem_filter.mp hs1mem
      have heq : s1 = s :=
        List.inj_on_of_nodup_map hids hmem.1 hs hs1id
      rw [← heq]
      exact of_decide_eq_true hmem.2
    · intro hact
      refine ⟨s, ?_, rfl⟩
      simp only [Db.get_all_active_sessions]
      exact List.mem_filter.mpr ⟨hs, decide_eq_true hact⟩
  by_cases hact : s.status = SessionStatus.active
  · by_cases hst : Tracker.staleBy st cfg now s.id = true
    · rw [if_pos ⟨hiff.mpr hact, hst⟩, if_pos ⟨hact, hst⟩]
    · rw [if_neg (fun hand => hst hand.2), if_neg (fun hand => hst hand.2)]
  · rw [if_neg (fun hand => hact (hiff.mp hand.1)), if_neg (fun hand => hact hand.1)]

/-- Claim C6: assuming distinct session rowids, the reconciliation sweep maps
the sessions table pointwise: a session is transitioned exactly when it is
Active and its staleness test holds, i.e. it has a last (most recent, by the
second conjunct) heartbeat whose timestamp plus the idle timeout is strictly
before now; the transition sets status Abandoned, clears end_commit and stores
the accumulator value; every other session, in particular every Active session
with no heartbeats (whose staleness test is false by definition), is
unchanged. -/
theorem claim_C6 (st : Store) (cfg : EffectiveConfig) (now : Int)
    (hids : (st.sessions.map (fun s => s.id)).Nodup) :
    (Tracker.close_abandoned_sessions st cfg now).sessions
      = st.sessions.map (fun s =>
          if s.status = SessionStatus.active ∧ Tracker.staleBy st cfg now s.id = true
          then Tracker.applyAbandon st cfg now s else s)
    ∧ (∀ session_id h, (Db.get_heartbeats st session_id).getLast? = some h →
        ∀ h2 ∈ Db.get_heartbeats st session_id, h2.timestamp ≤ h.timestamp) :=
  ⟨close_abandoned_sessions_sessions st cfg now hids,
   fun session_id h hl => get_heartbeats_last_max st session_id h hl⟩

/-- Concrete session fixture. -/
def mkSession (i pid : Nat) (stat : SessionStatus) : Session :=
  { id := i, project_id := pid, branch := "main", work_item := none, start_commit := none,
    end_commit := none, started_at := 0, ended_at := none, active_seconds := none,
    status := stat }

/-- Store for the C6 witness: session 1 is active with a stale heartbeat,
session 2 is active with a fresh heartbeat, session 3 is active with no
heartbeats, session 4 is completed. -/
def stW6 : Store :=
  { projects := [pW],
    sessions := [mkSession 1 1 SessionStatus.active, mkSession 2 1 SessionStatus.active,
                 mkSession 3 1 SessionStatus.active, mkSession 4 1 SessionStatus.completed],
    heartbeats := [{ id := 1, session_id := 1, timestamp := 0 },
                   { id := 2, session_id := 2, timestamp := 9000 }],
    commits := [], next_project_id := 2, next_session_id := 5, next_heartbeat_id := 3,
    next_commit_id := 1 }

/-- Witness for C6 at now = 1000 with a 10-minute timeout: only session 1
(last heartbeat 0, 0 + 600 < 1000) becomes Abandoned, with no end commit and
0 accumulated seconds; the fresh, heartbeat-less and completed sessions are
untouched. -/
theorem claim_C6_witness :
    (Tracker.close_abandoned_sessions stW6 cfgW 1000).sessions
      = [{ id := 1, project_id := 1, branch := "main", work_item := none, start_commit := none,
           end_commit := none, started_at := 0, ended_at := some 1000,
           active_seconds := some 0, status := SessionStatus.abandoned },
         mkSession 2 1 SessionStatus.active, mkSession 3 1 SessionStatus.active,
         mkSession 4 1 SessionStatus.completed] := by
  rw [(claim_C6 stW6 cfgW 1000 (by decide)).1]
  decide

/-! Supporting lemmas for the idempotent-start and invariant claims. -/

theorem foldl_sweep_projects (cfg : EffectiveConfig) (now : Int) :
    ∀ (l : List Session) (acc : Store),
      (l.foldl (Tracker.sweepStep cfg now) acc).projects = acc.projects
  | [], _ => rfl
  | s :: l, acc => by
    rw [List.foldl_cons, foldl_sweep_projects cfg now l, sweepStep_projects]

theorem close_abandoned_sessions_projects (st : Store) (cfg : EffectiveConfig) (now : Int) :
    (Tracker.close_abandoned_sessions st cfg now).projects = st.projects :=
  foldl_sweep_projects cfg now _ st

theorem foldl_sweep_heartbeats (cfg : EffectiveConfig) (now : Int) :
    ∀ (l : List Session) (acc : Store),
      (l.foldl (Tracker.sweepStep cfg now) acc).heartbeats = acc.heartbeats
  | [], _ => rfl
  | s :: l, acc => by
    rw [List.foldl_cons, foldl_sweep_heartbeats cfg now l, sweepStep_heartbeats]

theorem get_or_create_project_sessions (st : Store) (path : String)
    (gr dn wip : Option String) (now : Int) :
    (Db.get_or_create_project st path gr dn wip now).2.sessions = st.sessions := by
  unfold Db.get_or_create_project
  split
  · dsimp only
    split
    · rfl
    · rfl
  · rfl

theorem get_or_create_project_id (st : Store) (path : String) (gr dn wip : Option String)
    (now : Int) (p : Project) (hp : Db.get_project_by_path st path = some p) :
    (Db.get_or_create_project st path gr dn wip now).1.id = p.id := by
  unfold Db.get_or_create_project
  rw [hp]
  dsimp only
  split
  · cases hfind : Db.get_project_by_id
        { st with projects := st.projects.map (fun q =>
            if q.id = p.id then
              { q with git_remote := Db.coalesce gr q.git_remote
                       display_name := Db.coalesce dn q.display_name
                       work_item_pattern := Db.coalesce wip q.work_item_pattern }
            else q) } p.id with
    | none => rfl
    | some q =>
      have h2 := hfind
      unfold Db.get_project_by_id at h2
      have hq0 := List.find?_some h2
      have hq : q.id = p.id := by simpa using hq0
      simpa using hq
  · rfl

theorem filter_map_eq_filter {α} (f : α → α) (p : α → Bool) :
    ∀ l : List α, (∀ x ∈ l, p (f x) = p x ∧ (p x = true → f x = x)) →
      (l.map f).filter p = l.filter p
  | [], _ => rfl
  | x :: l, h => by
    rcases h x (List.mem_cons_self x l) with ⟨hpf, hfix⟩
    have ih := filter_map_eq_filter f p l (fun y hy => h y (List.mem_cons_of_mem x hy))
    rw [List.map_cons, List.filter_cons, List.filter_cons, hpf]
    by_cases hp : p x = true
    · simp only [hp, if_true]
      rw [hfix hp, ih]
    · simp only [hp, if_false]
      exact ih

theorem activeSessionsFor_sessions_congr {st1 st2 : Store} (h : st1.sessions = st2.sessions)
    (project_id : Nat) :
    Db.activeSessionsFor st1 project_id = Db.activeSessionsFor st2 project_id := by
  unfold Db.activeSessionsFor
  rw [h]

theorem get_active_session_singleton (st : Store) (project_id : Nat) (s : Session)
    (h : Db.activeSessionsFor st project_id = [s]) :
    Db.get_active_session st project_id = some s := by
  unfold Db.get_active_session
  rw [h]
  rfl

theorem start_session_noop (st : Store) (path : String) (config : EffectiveConfig)
    (git_info : Option GitInfo) (re : RegexEngine) (now : Int) (s : Session)
    (hgas : Db.get_active_session
        (Db.get_or_create_project (Tracker.close_abandoned_sessions st config now) path
          (git_info.bind (fun g => g.remote_url)) config.project_name
          config.work_item_pattern now).2
        (Db.get_or_create_project (Tracker.close_abandoned_sessions st config now) path
          (git_info.bind (fun g => g.remote_url)) config.project_name
          config.work_item_pattern now).1.id = some s) :
    Tracker.start_session st path config git_info re now
      = (Db.get_or_create_project (Tracker.close_abandoned_sessions st config now) path
          (git_info.bind (fun g => g.remote_url)) config.project_name
          config.work_item_pattern now).2 := by
  unfold Tracker.start_session
  dsimp only
  rw [hgas]

/-- Claim C7: when a project already has exactly one Active session whose last
heartbeat is not yet stale, a second Start is a no-op for that project: the
same single Active session (same record, hence same start timestamp) remains,
get_active_session still reports it, and no session row is added anywhere. -/
theorem claim_C7 (st : Store) (path : String) (config : EffectiveConfig)
    (git_info : Option GitInfo) (re : RegexEngine) (now : Int) (p : Project) (s : Session)
    (hids : (st.sessions.map (fun s0 => s0.id)).Nodup)
    (hproj : Db.get_project_by_path st path = some p)
    (hone : Db.activeSessionsFor st p.id = [s])
    (hfresh : Tracker.staleBy st config now s.id = false) :
    Db.activeSessionsFor (Tracker.start_session st path config git_info re now) p.id = [s]
    ∧ Db.get_active_session (Tracker.start_session st path config git_info re now) p.id
        = some s
    ∧ (Tracker.start_session st path config git_info re now).sessions.length
        = st.sessions.length := by
  obtain ⟨st1, hST1⟩ : ∃ st1, Tracker.close_abandoned_sessions st config now = st1 :=
    ⟨_, rfl⟩
  have hchar : st1.sessions = st.sessions.map (fun s0 =>
      if s0.status = SessionStatus.active ∧ Tracker.staleBy st config now s0.id = true
      then Tracker.applyAbandon st config now s0 else s0) := by
    rw [← hST1]
    exact close_abandoned_sessions_sessions st config now hids
  have hact1 : Db.activeSessionsFor st1 p.id = [s] := by
    unfold Db.activeSessionsFor at hone ⊢
    rw [hchar]
    rw [filter_map_eq_filter _ _ st.sessions ?_]
    · exact hone
    · intro x hx
      constructor
      · by_cases hcx : x.status = SessionStatus.active
            ∧ Tracker.staleBy st config now x.id = true
        · rw [if_pos hcx]
          have hpxfalse : decide (x.project_id = p.id
              ∧ x.status = SessionStatus.active) = false := by
            by_contra hne
            have hpx : decide (x.project_id = p.id ∧ x.status = SessionStatus.active)
                = true := by
              revert hne
              cases hdec : decide (x.project_id = p.id ∧ x.status = SessionStatus.active) <;>
                simp
            have hmem : x ∈ List.filter
                (fun s0 => decide (s0.project_id = p.id
                  ∧ s0.status = SessionStatus.active)) st.sessions :=
              List.mem_filter.mpr ⟨hx, hpx⟩
            rw [hone] at hmem
            have hxs : x = s := by simpa using hmem
            rw [hxs] at hcx
            rw [hfresh] at hcx
            exact Bool.false_ne_true hcx.2
          rw [hpxfalse]
          have : (Tracker.applyAbandon st config now x).status = SessionStatus.abandoned :=
            rfl
          simp [Tracker.applyAbandon]
        · rw [if_neg hcx]
      · intro hpx
        have hmem : x ∈ List.filter
            (fun s0 => decide (s0.project_id = p.id
              ∧ s0.status = SessionStatus.active)) st.sessions :=
          List.mem_filter.mpr ⟨hx, hpx⟩
        rw [hone] at hmem
        have hxs : x = s := by simpa using hmem
        subst hxs
        refine if_neg ?_
        rintro ⟨-, hstale⟩
        rw [hfresh] at hstale
        exact Bool.false_ne_true hstale
  have hproj1 : Db.get_project_by_path st1 path = some p := by
    have hpr : st1.projects = st.projects := by
      rw [← hST1]
      exact close_abandoned_sessions_projects st config now
    unfold Db.get_project_by_path at hproj ⊢
    rw [hpr]
    exact hproj
  obtain ⟨pr, hPR⟩ : ∃ pr, Db.get_or_create_project st1 path
      (git_info.bind (fun g => g.remote_url)) config.project_name
      config.work_item_pattern now = pr := ⟨_, rfl⟩
  have hsess2 : pr.2.sessions = st1.sessions := by
    rw [← hPR]
    exact get_or_create_project_sessions st1 path _ _ _ now
  have hid2 : pr.1.id = p.id := by
    rw [← hPR]
    exact get_or_create_project_id st1 path _ _ _ now p hproj1
  have hact2 : Db.activeSessionsFor pr.2 p.id = [s] := by
    rw [activeSessionsFor_sessions_congr hsess2]
    exact hact1
  have hgas : Db.get_active_session pr.2 pr.1.id = some s := by
    rw [hid2]
    exact get_active_session_singleton pr.2 p.id s hact2
  have hstart : Tracker.start_session st path config git_info re now = pr.2 := by
    rw [← hPR, ← hST1] at hgas
    have h := start_session_noop st path config git_info re now s hgas
    rw [h, hST1, hPR]
  rw [hstart]
  refine ⟨hact2, get_active_session_singleton pr.2 p.id s hact2, ?_⟩
  rw [hsess2, hchar, List.length_map]

/-- Store for the C7 witness: one project at /p with exactly one active
session (id 1, started at 42) whose single heartbeat at time 100 is still
fresh at now = 150 under the 10-minute timeout. -/
def stW7 : Store :=
  { projects := [pW],
    sessions := [{ id := 1, project_id := 1, branch := "main", work_item := none,
                   start_commit := none, end_commit := none, started_at := 42,
                   ended_at := none, active_seconds := none,
                   status := SessionStatus.active }],
    heartbeats := [{ id := 1, session_id := 1, timestamp := 100 }],
    commits := [], next_project_id := 2, next_session_id := 2, next_heartbeat_id := 2,
    next_commit_id := 1 }

/-- Witness for C7: a second Start at now = 150 leaves exactly the original
active session (start timestamp 42) and adds no session row. -/
theorem claim_C7_witness :
    Db.activeSessionsFor (Tracker.start_session stW7 "/p" cfgW none reW 150) 1
        = [{ id := 1, project_id := 1, branch := "main", work_item := none,
             start_commit := none, end_commit := none, started_at := 42,
             ended_at := none, active_seconds := none, status := SessionStatus.active }]
    ∧ (Tracker.start_session stW7 "/p" cfgW none reW 150).sessions.length = 1 := by
  have h := claim_C7 stW7 "/p" cfgW none reW 150 pW
    { id := 1, project_id := 1, branch := "main", work_item := none,
      start_commit := none, end_commit := none, started_at := 42,
      ended_at := none, active_seconds := none, status := SessionStatus.active }
    (by decide) (by decide) (by decide) (by decide)
  exact ⟨h.1, h.2.2⟩

/-! The at-most-one-active-session invariant. -/

theorem length_filter_map_le {α} (f : α → α) (p : α → Bool)
    (h : ∀ a, p (f a) = true → p a = true) :
    ∀ l : List α, ((l.map f).filter p).length ≤ (l.filter p).length
  | [] => le_refl _
  | a :: l => by
    rw [List.map_cons, List.filter_cons, List.filter_cons]
    by_cases hfa : p (f a) = true
    · rw [if_pos hfa, if_pos (h a hfa)]
      simpa using length_filter_map_le f p h l
    · rw [if_neg hfa]
      by_cases ha : p a = true
      · rw [if_pos ha]
        exact le_trans (length_filter_map_le f p h l) (by simp)
      · rw [if_neg ha]
        exact length_filter_map_le f p h l

theorem complete_session_active_le (st : Store) (session_id : Nat) (ec : Option String)
    (secs : Int) (status : SessionStatus) (hstatus : status ≠ SessionStatus.active)
    (now : Int) (project_id : Nat) :
    (Db.activeSessionsFor (Db.complete_session st session_id ec secs status now)
        project_id).length
      ≤ (Db.activeSessionsFor st project_id).length := by
  unfold Db.activeSessionsFor Db.complete_session
  dsimp only
  refine length_filter_map_le _ _ ?_ st.sessions
  intro a hpa
  by_cases hid : a.id = session_id
  · rw [if_pos hid] at hpa
    have h2 := of_decide_eq_true hpa
    exact absurd h2.2 hstatus
  · rw [if_neg hid] at hpa
    exact hpa

theorem sweepStep_active_le (cfg : EffectiveConfig) (now : Int) (acc : Store) (s : Session)
    (project_id : Nat) :
    (Db.activeSessionsFor (Tracker.sweepStep cfg now acc s) project_id).length
      ≤ (Db.activeSessionsFor acc project_id).length := by
  unfold Tracker.sweepStep
  dsimp only
  split
  · exact le_refl _
  · split
    · exact complete_session_active_le acc s.id none _ SessionStatus.abandoned
        (by decide) now project_id
    · exact le_refl _

theorem foldl_sweep_active_le (cfg : EffectiveConfig) (now : Int) :
    ∀ (l : List Session) (acc : Store) (project_id : Nat),
      (Db.activeSessionsFor (l.foldl (Tracker.sweepStep cfg now) acc) project_id).length
        ≤ (Db.activeSessionsFor acc project_id).length
  | [], _, _ => le_refl _
  | s :: l, acc, project_id => by
    rw [List.foldl_cons]
    exact le_trans (foldl_sweep_active_le cfg now l _ project_id)
      (sweepStep_active_le cfg now acc s project_id)

theorem uniqueActive_sweep (st : Store) (cfg : EffectiveConfig) (now : Int)
    (h : uniqueActive st) : uniqueActive (Tracker.close_abandoned_sessions st cfg now) :=
  fun project_id =>
    le_trans (foldl_sweep_active_le cfg now _ st project_id) (h project_id)

theorem get_active_session_none_iff (st : Store) (project_id : Nat) :
    Db.get_active_session st project_id = none
      ↔ Db.activeSessionsFor st project_id = [] := by
  unfold Db.get_active_session
  rw [List.head?_eq_none_iff]
  exact sortLe_eq_nil_iff _ _

theorem record_commits_sessions (session_id : Nat) :
    ∀ (commits : List (String × String × Option Int)) (st : Store),
      (Db.record_commits st session_id commits).sessions = st.sessions
  | [], _ => rfl
  | c :: cs, st => by
    have h := record_commits_sessions session_id cs
      { st with
          commits := st.commits ++
            [{ id := st.next_commit_id, session_id := session_id,
               hash := c.1, message := some c.2.1, committed_at := c.2.2 }],
          next_commit_id := st.next_commit_id + 1 }
    exact h

theorem create_session_active (st : Store) (project_id : Nat) (branch : String)
    (work_item start_commit : Option String) (now : Int) (pid : Nat) :
    Db.activeSessionsFor (Db.create_session st project_id branch work_item
        start_commit now).2 pid
      = Db.activeSessionsFor st pid
        ++ (if pid = project_id
            then [(Db.create_session st project_id branch work_item start_commit now).1]
            else []) := by
  unfold Db.activeSessionsFor Db.create_session
  dsimp only
  rw [List.filter_append]
  congr 1
  by_cases hp : pid = project_id
  · subst hp
    rw [if_pos rfl]
    simp
  · rw [if_neg hp]
    have hp2 : ¬(project_id = pid) := fun h2 => hp h2.symm
    simp [hp2]

theorem uniqueActive_start (st : Store) (path : String) (config : EffectiveConfig)
    (git_info : Option GitInfo) (re : RegexEngine) (now : Int)
    (h : uniqueActive st) :
    uniqueActive (Tracker.start_session st path config git_info re now) := by
  obtain ⟨st1, hST1⟩ : ∃ x, Tracker.close_abandoned_sessions st config now = x := ⟨_, rfl⟩
  have h1 : uniqueActive st1 := by
    rw [← hST1]
    exact uniqueActive_sweep st config now h
  obtain ⟨pr, hPR⟩ : ∃ x, Db.get_or_create_project st1 path
      (git_info.bind (fun g => g.remote_url)) config.project_name
      config.work_item_pattern now = x := ⟨_, rfl⟩
  have hsess : pr.2.sessions = st1.sessions := by
    rw [← hPR]
    exact get_or_create_project_sessions st1 path _ _ _ now
  have h2 : uniqueActive pr.2 := by
    intro pid
    rw [activeSessionsFor_sessions_congr hsess]
    exact h1 pid
  cases hgas : Db.get_active_session pr.2 pr.1.id with
  | some ex =>
    have hstart : Tracker.start_session st path config git_info re now = pr.2 := by
      rw [← hPR, ← hST1] at hgas
      have hx := start_session_noop st path config git_info re now ex hgas
      rw [hx, hST1, hPR]
    rw [hstart]
    exact h2
  | none =>
    have hempty : Db.activeSessionsFor pr.2 pr.1.id = [] :=
      (get_active_session_none_iff pr.2 pr.1.id).mp hgas
    obtain ⟨cs, hCS⟩ : ∃ x, Db.create_session pr.2 pr.1.id
        ((git_info.map (fun g => g.branch)).getD "unknown")
        (Tracker.extract_work_item re ((git_info.map (fun g => g.branch)).getD "unknown")
          config.work_item_pattern)
        (git_info.bind (fun g => g.head_commit)) now = x := ⟨_, rfl⟩
    have hstart : Tracker.start_session st path config git_info re now
        = (Db.record_heartbeat cs.2 cs.1.id now).2 := by
      rw [← hPR, ← hST1] at hgas
      unfold Tracker.start_session
      dsimp only
      rw [hgas, hST1, hPR, hCS]
    rw [hstart]
    intro pid
    have e1 : Db.activeSessionsFor (Db.record_heartbeat cs.2 cs.1.id now).2 pid
        = Db.activeSessionsFor cs.2 pid := rfl
    rw [e1]
    have e2 := create_session_active pr.2 pr.1.id
      ((git_info.map (fun g => g.branch)).getD "unknown")
      (Tracker.extract_work_item re ((git_info.map (fun g => g.branch)).getD "unknown")
        config.work_item_pattern)
      (git_info.bind (fun g => g.head_commit)) now pid
    rw [hCS] at e2
    rw [e2]
    by_cases hpid : pid = pr.1.id
    · rw [if_pos hpid, hpid, hempty]
      simp
    · rw [if_neg hpid]
      simpa using h2 pid

theorem uniqueActive_heartbeat (st : Store) (path : String) (now : Int)
    (h : uniqueActive st) : uniqueActive (Tracker.record_heartbeat st path now) := by
  unfold Tracker.record_heartbeat
  split
  · exact h
  · split
    · exact h
    · intro pid
      rw [activeSessionsFor_sessions_congr
        (show (Db.record_heartbeat st _ now).2.sessions = st.sessions from rfl)]
      exact h pid

theorem uniqueActive_applyOp (st : Store) (op : Op) (h : uniqueActive st) :
    uniqueActive (applyOp st op) := by
  cases op with
  | start path config git_info re now =>
    exact uniqueActive_start st path config git_info re now h
  | heartbeat path now => exact uniqueActive_heartbeat st path now h
  | sweep config now => exact uniqueActive_sweep st config now h
  | stop path config git_info commits_between now =>
    show uniqueActive (match Tracker.stop_session st path config git_info
        commits_between now with
      | Except.ok st2 => st2
      | Except.error _ => st)
    cases hstop : Tracker.stop_session st path config git_info commits_between now with
    | error e => exact h
    | ok st2 =>
      unfold Tracker.stop_session at hstop
      dsimp only at hstop
      cases hproj : Db.get_project_by_path st path with
      | none =>
        rw [hproj] at hstop
        exact absurd hstop (by simp)
      | some project =>
        rw [hproj] at hstop
        dsimp only at hstop
        cases hgas : Db.get_active_session st project.id with
        | none =>
          rw [hgas] at hstop
          dsimp only at hstop
          injection hstop with h2
          subst h2
          exact h
        | some session =>
          rw [hgas] at hstop
          dsimp only at hstop
          injection hstop with h2
          subst h2
          intro pid
          have hle : ∀ base : Store, base.sessions = st.sessions →
              (Db.activeSessionsFor (Db.complete_session base session.id
                (git_info.bind (fun g => g.head_commit))
                (Tracker.calculate_active_time (Db.get_heartbeats st session.id)
                  config.idle_timeout_minutes)
                SessionStatus.completed now) pid).length ≤ 1 := by
            intro base hbase
            refine le_trans (complete_session_active_le base session.id _ _
              SessionStatus.completed (by decide) now pid) ?_
            rw [activeSessionsFor_sessions_congr hbase]
            exact h pid
          cases hsc : session.start_commit with
          | none => exact hle st rfl
          | some sc =>
            cases commits_between with
            | none => exact hle st rfl
            | some commits =>
              refine hle _ ?_
              show (if commits.isEmpty = true then st
                  else Db.record_commits st session.id commits).sessions = st.sessions
              split
              · rfl
              · exact record_commits_sessions session.id commits st

theorem uniqueActive_empty : uniqueActive emptyStore := by
  intro pid
  simp [Db.activeSessionsFor, emptyStore]

theorem foldl_applyOp_unique :
    ∀ (ops : List Op) (st : Store), uniqueActive st → uniqueActive (ops.foldl applyOp st)
  | [], _, h => h
  | op :: ops, st, h => by
    rw [List.foldl_cons]
    exact foldl_applyOp_unique ops _ (uniqueActive_applyOp st op h)

/-- Claim C3: every store reached from the fresh database by any sequence of
Start, Heartbeat, Stop and Reconciliation Sweep invocations has at most one
Active session per project. -/
theorem claim_C3 (ops : List Op) : uniqueActive (runOps ops) :=
  foldl_applyOp_unique ops emptyStore uniqueActive_empty

/-! The report aggregator: surviving projects have nonzero totals, and a
zero-seconds work-item group can survive inside a nonzero project. -/

theorem sortLe_map_sum {α} (le : α → α → Bool) (f : α → Int) (l : List α) :
    ((sortLe le l).map f).sum = (l.map f).sum :=
  ((sortLe_perm le l).map f).sum_eq

theorem generate_report_inv (st : Store) (ms me : Int) (filt : Option String) (cap : Nat) :
    ∀ (l : List Project) (acc : List ProjectReport × Int),
      (∀ p ∈ acc.1, p.total_seconds ≠ 0
        ∧ p.total_seconds = (p.work_items.map (fun w => w.total_seconds)).sum) →
      ∀ p ∈ (l.foldl (Report.projectStep st ms me filt cap) acc).1,
        p.total_seconds ≠ 0
        ∧ p.total_seconds = (p.work_items.map (fun w => w.total_seconds)).sum
  | [], _, hacc => hacc
  | project :: l, acc, hacc => by
    rw [List.foldl_cons]
    refine generate_report_inv st ms me filt cap l _ ?_
    intro p hp
    unfold Report.projectStep at hp
    dsimp only at hp
    split at hp
    · split at hp
      · exact hacc p hp
      · split at hp
        · exact hacc p hp
        · rename_i hfilter hnonempty htotal
          rcases List.mem_append.mp hp with hp1 | hp2
          · exact hacc p hp1
          · have hpe := List.mem_singleton.mp hp2
            subst hpe
            refine ⟨htotal, ?_⟩
            dsimp only
            rw [sortLe_map_sum, List.map_map]
            rfl
    · exact hacc p hp

/-- Claim C2 amended: every project in the generated report has a nonzero
total, equal to the sum of its work-item groups' seconds (so projects whose
qualifying groups sum to zero are indeed dropped); but individual work-item
groups with zero summed seconds are not dropped, as the counterexample
exhibits. -/
theorem claim_C2_amended (st : Store) (year : Int) (month : Nat)
    (month_start month_end : Int) (project_filter : Option String)
    (max_commits_per_item : Nat) :
    ∀ p ∈ (Report.generate_report st year month month_start month_end project_filter
        max_commits_per_item).projects,
      p.total_seconds ≠ 0
      ∧ p.total_seconds = (p.work_items.map (fun w => w.total_seconds)).sum := by
  intro p hp
  unfold Report.generate_report at hp
  dsimp only at hp
  rw [mem_sortLe] at hp
  exact generate_report_inv st month_start month_end project_filter max_commits_per_item
    (Db.list_projects st) ([], 0) (by simp) p hp

/-- Store on which the aggregator keeps a zero-seconds work-item group: one
project with two completed sessions in range, work item A with 100 seconds and
work item B with 0 seconds. -/
def stC2 : Store :=
  { projects := [pW],
    sessions := [
      { id := 1, project_id := 1, branch := "main", work_item := some "A",
        start_commit := none, end_commit := none, started_at := 10, ended_at := some 20,
        active_seconds := some 100, status := SessionStatus.completed },
      { id := 2, project_id := 1, branch := "main", work_item := some "B",
        start_commit := none, end_commit := none, started_at := 11, ended_at := some 21,
        active_seconds := some 0, status := SessionStatus.completed }],
    heartbeats := [], commits := [],
    next_project_id := 2, next_session_id := 3, next_heartbeat_id := 1, next_commit_id := 1 }

/-- Counterexample to C2 as stated: the report for stC2 over the interval
[0, 1000) contains project /p with work-item group B whose summed
active-seconds is zero — zero-seconds groups are not dropped when the project
total is nonzero. -/
theorem claim_C2_counterexample :
    ∃ p ∈ (Report.generate_report stC2 2025 1 0 1000 none 10).projects,
      ∃ w ∈ p.work_items, w.total_seconds = 0 := by
  decide

/-- The project report generated for stC2, used by the amended-claim witness. -/
def prC2 : ProjectReport :=
  { name := "/p", path := "/p", total_seconds := 100,
    work_items := [
      { id := "A", branch := some "main", total_seconds := 100, completed_date := none,
        commits := [] },
      { id := "B", branch := some "main", total_seconds := 0, completed_date := none,
        commits := [] }] }

/-- Witness for the amended C2: the report's one project has nonzero total 100,
the sum of its groups' 100 and 0 seconds. -/
theorem claim_C2_amended_witness :
    prC2.total_seconds ≠ 0
    ∧ prC2.total_seconds = (prC2.work_items.map (fun w => w.total_seconds)).sum :=
  claim_C2_amended stC2 2025 1 0 1000 none 10 prC2 (by decide)
